import Mathlib

/-!
Verification of the claim-history reconstruction logic of the claims-web
repository: the chunked block-range query helper `chunkedQueryFilter` and the
history `load` routine (src/unnamed/part_003, with near-identical copies in
src/unnamed/part_000 and src/claims-web/src/App.tsx).

Block numbers are modelled as integers (`ℤ`), spans as naturals (`ℕ`).
Fallible asynchronous calls are modelled with `Except`.
-/

namespace ClaimsWeb

/-- The decoded payload of a ClaimPaid log entry
(`event ClaimPaid(uint256 id, bytes32 claimKey, address provider, uint16 code,
uint16 year, uint256 amount, uint32 visitIndex)`), together with its
provenance (`transactionHash`, `blockNumber`). -/
structure PaidLog where
  id : ℕ
  provider : String
  code : ℕ
  year : ℕ
  amount : ℕ
  visitIndex : ℕ
  tx : String
  block : ℤ
deriving DecidableEq, Repr

/-- The decoded payload of a ClaimRejected log entry
(`event ClaimRejected(bytes32 claimKey, address provider, uint16 code,
uint16 year, string reason)`), together with its provenance. -/
structure RejLog where
  provider : String
  code : ℕ
  year : ℕ
  reason : String
  tx : String
  block : ℤ
deriving DecidableEq, Repr

/-- The kind tag of a history row (`kind: "paid"` / `kind: "rejected"`). -/
inductive RowKind where
  | paid
  | rejected
deriving DecidableEq, Repr

/-- A history row as pushed onto `rows` in `load` (src/unnamed/part_003
lines 320-344).  Fields absent from the pushed object literal (amount and
visitIndex on rejected rows, reason on paid rows) are `none`. -/
structure Row where
  kind : RowKind
  id : String
  code : ℕ
  year : ℕ
  amount : Option ℕ
  visitIndex : Option ℕ
  reason : Option String
  tx : String
  block : ℤ
deriving DecidableEq, Repr

/-- Embedding of `chunkedQueryFilter` (src/unnamed/part_003 lines 59-83).
`q` stands for the pair (contract, filter): `q s e` is
`c.queryFilter(filter, s, e)`, returning the logs or throwing.  The `while`
loop over `start` becomes recursion on the remaining range; the `catch`
branch re-chunks `[start, end]` with `Math.floor(maxSpan / 2)` unless
`maxSpan <= 200`, in which case the error is rethrown.  An error from a
recursive call propagates (the `try` only wraps the `queryFilter` call).
The source parameter `to` is spelled `tob` because `to` is reserved in Lean. -/
def chunkedQueryFilter {ε α : Type} (q : ℤ → ℤ → Except ε (List α))
    (start tob : ℤ) (maxSpan : ℕ) : Except ε (List α) :=
  if _h : start ≤ tob then
    match q start (min (start + (maxSpan : ℤ)) tob) with
    | .ok logs =>
      match chunkedQueryFilter q (min (start + (maxSpan : ℤ)) tob + 1) tob maxSpan with
      | .ok rest => .ok (logs ++ rest)
      | .error err => .error err
    | .error err =>
      if maxSpan ≤ 200 then .error err
      else
        match chunkedQueryFilter q start (min (start + (maxSpan : ℤ)) tob) (maxSpan / 2) with
        | .error err2 => .error err2
        | .ok more =>
          match chunkedQueryFilter q (min (start + (maxSpan : ℤ)) tob + 1) tob maxSpan with
          | .ok rest => .ok (more ++ rest)
          | .error err2 => .error err2
  else .ok []
termination_by (maxSpan, (tob + 1 - start).toNat)
decreasing_by
  all_goals first
  | (apply Prod.Lex.left; omega)
  | (apply Prod.Lex.right
     rcases le_total (start + (maxSpan : ℤ)) tob with h2 | h2
     · rw [min_eq_left h2]; omega
     · rw [min_eq_right h2]; omega)

/-- The sequence of sub-ranges `(start, Math.min(start + maxSpan, tob))`
visited by the `while` loop of `chunkedQueryFilter` on its success path. -/
def chunkRanges (maxSpan : ℕ) (start tob : ℤ) : List (ℤ × ℤ) :=
  if _h : start ≤ tob then
    (start, min (start + (maxSpan : ℤ)) tob) ::
      chunkRanges maxSpan (min (start + (maxSpan : ℤ)) tob + 1) tob
  else []
termination_by (tob + 1 - start).toNat
decreasing_by
  rcases le_total (start + (maxSpan : ℤ)) tob with h2 | h2
  · rw [min_eq_left h2]; omega
  · rw [min_eq_right h2]; omega

theorem chunkRanges_nil {m : ℕ} {start tob : ℤ} (h : tob < start) :
    chunkRanges m start tob = [] := by
  rw [chunkRanges, dif_neg (not_le.mpr h)]

theorem chunkRanges_cons {m : ℕ} {start tob : ℤ} (h : start ≤ tob) :
    chunkRanges m start tob =
      (start, min (start + (m : ℤ)) tob) ::
        chunkRanges m (min (start + (m : ℤ)) tob + 1) tob := by
  rw [chunkRanges, dif_pos h]

theorem min_span_bounds (m : ℕ) {start tob : ℤ} (h : start ≤ tob) :
    start ≤ min (start + (m : ℤ)) tob ∧ min (start + (m : ℤ)) tob ≤ tob ∧
      min (start + (m : ℤ)) tob - start ≤ (m : ℤ) := by
  refine ⟨le_min (by omega) h, min_le_right _ _, ?_⟩
  have := min_le_left (start + (m : ℤ)) tob
  omega

theorem chunkRanges_bounds {m : ℕ} {start tob : ℤ} :
    ∀ r ∈ chunkRanges m start tob,
      start ≤ r.1 ∧ r.1 ≤ r.2 ∧ r.2 ≤ tob ∧ r.2 - r.1 ≤ (m : ℤ) := by
  induction start, tob using chunkRanges.induct m with
  | case1 start tob h ih =>
    intro r hr
    obtain ⟨h1, h2, h3⟩ := min_span_bounds m h
    rw [chunkRanges_cons h] at hr
    rcases List.mem_cons.mp hr with rfl | hr
    · exact ⟨le_refl _, h1, h2, h3⟩
    · obtain ⟨a, b, c, d⟩ := ih r hr
      exact ⟨by omega, b, c, d⟩
  | case2 start tob h =>
    intro r hr
    rw [chunkRanges_nil (by omega)] at hr
    exact absurd hr (List.not_mem_nil r)

theorem chunkRanges_cover {m : ℕ} {start tob : ℤ} :
    ∀ b : ℤ, start ≤ b → b ≤ tob →
      ∃ r ∈ chunkRanges m start tob, r.1 ≤ b ∧ b ≤ r.2 := by
  induction start, tob using chunkRanges.induct m with
  | case1 start tob h ih =>
    intro b hb1 hb2
    by_cases hb : b ≤ min (start + (m : ℤ)) tob
    · exact ⟨(start, min (start + (m : ℤ)) tob),
        by rw [chunkRanges_cons h]; exact List.mem_cons_self _ _, hb1, hb⟩
    · obtain ⟨r, hr, hr1, hr2⟩ := ih b (by omega) hb2
      exact ⟨r, by rw [chunkRanges_cons h]; exact List.mem_cons_of_mem _ hr, hr1, hr2⟩
  | case2 start tob h =>
    intro b hb1 hb2
    omega

theorem chunkRanges_pairwise {m : ℕ} {start tob : ℤ} :
    List.Pairwise (fun r s : ℤ × ℤ => r.2 < s.1) (chunkRanges m start tob) := by
  induction start, tob using chunkRanges.induct m with
  | case1 start tob h ih =>
    rw [chunkRanges_cons h]
    refine List.Pairwise.cons (fun r hr => ?_) ih
    have := (chunkRanges_bounds r hr).1
    omega
  | case2 start tob h =>
    rw [chunkRanges_nil (by omega)]
    exact List.Pairwise.nil

theorem chunked_base {ε α : Type} {q : ℤ → ℤ → Except ε (List α)} {start tob : ℤ}
    {m : ℕ} (h : tob < start) : chunkedQueryFilter q start tob m = .ok [] := by
  rw [chunkedQueryFilter, dif_neg (not_le.mpr h)]

/-- With an oracle that never fails, `chunkedQueryFilter` succeeds and returns
exactly the concatenation of the oracle's answers over the `chunkRanges`
sub-ranges, in ascending order. -/
theorem chunked_ok_eq {ε α : Type} (f : ℤ → ℤ → List α) :
    ∀ {m : ℕ} {start tob : ℤ},
      chunkedQueryFilter (fun s e => (Except.ok (f s e) : Except ε (List α))) start tob m
        = .ok ((chunkRanges m start tob).flatMap (fun r => f r.1 r.2)) := by
  intro m start tob
  induction start, tob using chunkRanges.induct m with
  | case1 start tob h ih =>
    rw [chunkedQueryFilter, dif_pos h, chunkRanges_cons h]
    simp only [ih, List.flatMap_cons]
  | case2 start tob h =>
    rw [chunked_base (by omega), chunkRanges_nil (by omega)]
    simp

set_option linter.unusedVariables false in
/-- C1: for `to ≥ from` and positive `MAX_SPAN`, the sub-ranges queried by
`chunkedQueryFilter` — `(start, min(start + maxSpan, to))` as the loop
advances — cover `[from, to]` exactly: every block of `[from, to]` lies in a
sub-range and vice versa, the sub-ranges are in ascending order and pairwise
non-overlapping, each spans at most `maxSpan`, and on an error-free source
the function queries exactly these sub-ranges. -/
theorem C1_chunk_partition {ε α : Type} (fromB tob : ℤ) (maxSpan : ℕ)
    (hle : fromB ≤ tob) (hpos : 0 < maxSpan) :
    (∀ b : ℤ, (fromB ≤ b ∧ b ≤ tob) ↔
        ∃ r ∈ chunkRanges maxSpan fromB tob, r.1 ≤ b ∧ b ≤ r.2)
    ∧ List.Pairwise (fun r s : ℤ × ℤ => r.2 < s.1) (chunkRanges maxSpan fromB tob)
    ∧ (∀ r ∈ chunkRanges maxSpan fromB tob, r.1 ≤ r.2 ∧ r.2 - r.1 ≤ (maxSpan : ℤ))
    ∧ ∀ f : ℤ → ℤ → List α,
        chunkedQueryFilter (fun s e => (Except.ok (f s e) : Except ε (List α)))
            fromB tob maxSpan
          = .ok ((chunkRanges maxSpan fromB tob).flatMap (fun r => f r.1 r.2)) := by
  refine ⟨fun b => ⟨fun hb => chunkRanges_cover b hb.1 hb.2, fun hb => ?_⟩,
    chunkRanges_pairwise, fun r hr => ?_, fun f => chunked_ok_eq f⟩
  · obtain ⟨r, hr, hr1, hr2⟩ := hb
    obtain ⟨a, b2, c, d⟩ := chunkRanges_bounds r hr
    omega
  · obtain ⟨a, b2, c, d⟩ := chunkRanges_bounds r hr
    exact ⟨b2, d⟩

/-- Witness for C1 at `from = 0`, `to = 5`, `maxSpan = 2`. -/
theorem C1_witness :
    (∀ b : ℤ, ((0 : ℤ) ≤ b ∧ b ≤ 5) ↔
        ∃ r ∈ chunkRanges 2 0 5, r.1 ≤ b ∧ b ≤ r.2)
    ∧ List.Pairwise (fun r s : ℤ × ℤ => r.2 < s.1) (chunkRanges 2 0 5)
    ∧ (∀ r ∈ chunkRanges 2 0 5, r.1 ≤ r.2 ∧ r.2 - r.1 ≤ ((2 : ℕ) : ℤ))
    ∧ ∀ f : ℤ → ℤ → List ℕ,
        chunkedQueryFilter (fun s e => (Except.ok (f s e) : Except Unit (List ℕ))) 0 5 2
          = .ok ((chunkRanges 2 0 5).flatMap (fun r => f r.1 r.2)) :=
  C1_chunk_partition 0 5 2 (by norm_num) (by norm_num)

/-- JavaScript `Number(s)` on the decimal-numeral strings that occur at the
scan interface (the `fromBlock` text field and the stored cursor). -/
def jsNumber (s : String) : ℤ :=
  s.data.foldl (fun acc c => acc * 10 + ((c.toNat - 48 : ℕ) : ℤ)) 0

/-- JavaScript `s.toLowerCase()` on the ASCII hex-address strings compared by
`load` (character-wise lowercasing). -/
def jsToLower (s : String) : String := ⟨s.data.map Char.toLower⟩

/-- The `saved` cursor read in `load` (src/unnamed/part_003 line 302):
`Number(localStorage.getItem("claims.fromBlock") || 0)`.  An absent key
(`getItem` returns `null`) yields 0. -/
def savedCursor (store : Option ℤ) : ℤ := store.getD 0

/-- The `baseFrom` resolution of `load` (src/unnamed/part_003 lines 303-306):
`fromBlock ? Number(fromBlock) : saved ? saved : Math.max(to - LOOKBACK, 0)`.
A string is truthy in JavaScript exactly when it is non-empty; a number is
truthy exactly when it is non-zero. -/
def resolveFrom (fromBlock : String) (saved tob : ℤ) (lookback : ℕ) : ℤ :=
  if fromBlock ≠ "" then jsNumber fromBlock
  else if saved ≠ 0 then saved
  else max (tob - (lookback : ℤ)) 0

/-- The row pushed for a ClaimPaid log (src/unnamed/part_003 lines 322-331). -/
def paidRow (l : PaidLog) : Row :=
  ⟨.paid, toString l.id, l.code, l.year, some l.amount, some l.visitIndex,
    none, l.tx, l.block⟩

/-- The row pushed for a ClaimRejected log (src/unnamed/part_003
lines 335-343). -/
def rejRow (l : RejLog) : Row :=
  ⟨.rejected, "-", l.code, l.year, none, none, some l.reason, l.tx, l.block⟩

/-- One iteration of the `for (const l of paidLogs)` loop: skip the log unless
its reported provider, lowercased, equals `providerAddr`. -/
def pushPaid (providerAddr : String) (rows : List Row) (l : PaidLog) : List Row :=
  if jsToLower l.provider = providerAddr then rows ++ [paidRow l] else rows

/-- One iteration of the `for (const l of rejLogs)` loop. -/
def pushRej (providerAddr : String) (rows : List Row) (l : RejLog) : List Row :=
  if jsToLower l.provider = providerAddr then rows ++ [rejRow l] else rows

/-- The `rows` array built by the two loops of `load` (src/unnamed/part_003
lines 319-344): all matching paid rows in retrieval order, then all matching
rejected rows in retrieval order. -/
def buildRows (providerAddr : String) (paidLogs : List PaidLog)
    (rejLogs : List RejLog) : List Row :=
  rejLogs.foldl (pushRej providerAddr) (paidLogs.foldl (pushPaid providerAddr) [])

/-- Comparison used by `rows.sort((a,b) => a.block - b.block)`. -/
def blockLe (a b : Row) : Prop := a.block ≤ b.block

instance : DecidableRel blockLe := fun a b => inferInstanceAs (Decidable (a.block ≤ b.block))

instance : IsTotal Row blockLe := ⟨fun a b => Int.le_total a.block b.block⟩

instance : IsTrans Row blockLe := ⟨fun _ _ _ h1 h2 => le_trans h1 h2⟩

/-- Embedding of `rows.sort((a,b) => a.block - b.block)`.  ECMAScript
`Array.prototype.sort` is required to be stable, and a stable sort under a
total preorder is extensionally unique, so insertion sort is a faithful
model. -/
def sortRows (rows : List Row) : List Row := List.insertionSort blockLe rows

/-- Failures of a `load` invocation: the `throw new Error("Event filters
missing (ABI mismatch?)")` probe (src/unnamed/part_003 line 311), or an error
propagated out of a chunked query. -/
inductive LoadError (ε : Type) where
  | filtersMissing
  | query (e : ε)
deriving DecidableEq

/-- Embedding of the `load` closure of `HistoryPanel` (src/unnamed/part_003
lines 294-357).  `qPaid`/`qRej` stand for `queryFilter` applied to the two
provider-indexed filters; `filtersOk` is whether both filter constructors
exist; `head` is `await readProvider.getBlockNumber()`; `store` is the
`localStorage` cell `"claims.fromBlock"` (`none` when the key is absent);
`fromBlock` is the manual-override text field; `lookback` is the `LOOKBACK`
constant (9000 in part_003, 200000 in part_000).  The returned pair is the
result shown to the caller (`setItems` on success, the caught error
otherwise) and the cursor cell after the invocation: the `catch` path leaves
the store untouched, the success path writes `String(to + 1)`.  When both
chunked queries fail, `Promise.all` surfaces one of the two rejections; the
model picks the paid query's error. -/
def load {ε : Type} (qPaid : ℤ → ℤ → Except ε (List PaidLog))
    (qRej : ℤ → ℤ → Except ε (List RejLog)) (filtersOk : Bool) (head : ℤ)
    (lookback : ℕ) (store : Option ℤ) (fromBlock : String) (provider : String) :
    Except (LoadError ε) (List Row) × Option ℤ :=
  let providerAddr := jsToLower provider
  let tob := head
  let saved := savedCursor store
  let baseFrom := resolveFrom fromBlock saved tob lookback
  if filtersOk then
    match chunkedQueryFilter qPaid baseFrom tob 9500,
        chunkedQueryFilter qRej baseFrom tob 9500 with
    | .error e, _ => (.error (.query e), store)
    | .ok _, .error e => (.error (.query e), store)
    | .ok paidLogs, .ok rejLogs =>
      (.ok ((sortRows (buildRows providerAddr paidLogs rejLogs)).reverse),
        some (tob + 1))
  else (.error .filtersMissing, store)

/-- The event source simulated in the spec's bisection-termination property:
it rejects exactly the queries spanning more than `w` blocks and otherwise
returns the events of the requested range, in stream order. -/
def rangeLimitedSource (w : ℕ) (evs : List PaidLog) (s e : ℤ) :
    Except Unit (List PaidLog) :=
  if (w : ℤ) < e - s then .error ()
  else .ok (evs.filter (fun l => decide (s ≤ l.block) && decide (l.block ≤ e)))

/-- The kind-exclusivity invariant of a ClaimEvent row: paid rows carry
amount and visitIndex and no reason; rejected rows carry a reason and no
amount or visitIndex. -/
def rowInv (r : Row) : Prop :=
  (r.kind = .paid → r.amount.isSome ∧ r.visitIndex.isSome ∧ r.reason = none)
  ∧ (r.kind = .rejected → r.reason.isSome ∧ r.amount = none ∧ r.visitIndex = none)

theorem foldl_pushPaid (a : String) (ls : List PaidLog) :
    ∀ init, ls.foldl (pushPaid a) init
      = init ++ (ls.filter (fun l => decide (jsToLower l.provider = a))).map paidRow := by
  induction ls with
  | nil => intro init; simp
  | cons l t ih =>
    intro init
    by_cases h : jsToLower l.provider = a
    · simp [pushPaid, h, ih, List.filter_cons]
    · simp [pushPaid, h, ih, List.filter_cons]

theorem foldl_pushRej (a : String) (ls : List RejLog) :
    ∀ init, ls.foldl (pushRej a) init
      = init ++ (ls.filter (fun l => decide (jsToLower l.provider = a))).map rejRow := by
  induction ls with
  | nil => intro init; simp
  | cons l t ih =>
    intro init
    by_cases h : jsToLower l.provider = a
    · simp [pushRej, h, ih, List.filter_cons]
    · simp [pushRej, h, ih, List.filter_cons]

/-- The two `for` loops of `load` amount to: filter each log stream by the
lowercased provider address, decode, and concatenate (paid first). -/
theorem buildRows_eq (a : String) (ps : List PaidLog) (rs : List RejLog) :
    buildRows a ps rs
      = (ps.filter (fun l => decide (jsToLower l.provider = a))).map paidRow
        ++ (rs.filter (fun l => decide (jsToLower l.provider = a))).map rejRow := by
  rw [buildRows, foldl_pushPaid, foldl_pushRej]
  simp

theorem filter_orderedInsert (k : ℤ) (x : Row) (l : List Row) :
    (List.orderedInsert blockLe x l).filter (fun r => decide (r.block = k))
      = if x.block = k
        then x :: l.filter (fun r => decide (r.block = k))
        else l.filter (fun r => decide (r.block = k)) := by
  induction l with
  | nil =>
    by_cases hx : x.block = k <;> simp [List.orderedInsert, List.filter_cons, hx]
  | cons b t ih =>
    rw [List.orderedInsert]
    by_cases hxb : blockLe x b
    · rw [if_pos hxb]
      by_cases hx : x.block = k <;> simp [List.filter_cons, hx]
    · rw [if_neg hxb]
      by_cases hb : b.block = k
      · by_cases hx : x.block = k
        · exact absurd (show blockLe x b from by
            unfold blockLe; rw [hx, hb]) hxb
        · simp [List.filter_cons, hb, hx, ih]
      · by_cases hx : x.block = k <;> simp [List.filter_cons, hb, hx, ih]

/-- Stability of the block sort: the rows at any fixed block number keep
their original relative order. -/
theorem filter_sortRows (k : ℤ) (l : List Row) :
    (sortRows l).filter (fun r => decide (r.block = k))
      = l.filter (fun r => decide (r.block = k)) := by
  induction l with
  | nil => rfl
  | cons x t ih =>
    rw [sortRows, List.insertionSort, filter_orderedInsert]
    rw [sortRows] at ih
    by_cases hx : x.block = k <;> simp [List.filter_cons, hx, ih]

theorem sortRows_sorted (l : List Row) : List.Sorted blockLe (sortRows l) :=
  List.sorted_insertionSort blockLe l

theorem sortRows_perm (l : List Row) : List.Perm (sortRows l) l :=
  List.perm_insertionSort blockLe l

/-- Unfolding of `load` when the filter probe fails. -/
theorem load_filters_err {ε : Type} (qPaid : ℤ → ℤ → Except ε (List PaidLog))
    (qRej : ℤ → ℤ → Except ε (List RejLog)) (head : ℤ) (lookback : ℕ)
    (store : Option ℤ) (fromBlock provider : String) :
    load qPaid qRej false head lookback store fromBlock provider
      = (.error .filtersMissing, store) := rfl

/-- Unfolding of `load` when both chunked queries succeed. -/
theorem load_ok {ε : Type} {qPaid : ℤ → ℤ → Except ε (List PaidLog)}
    {qRej : ℤ → ℤ → Except ε (List RejLog)} {head : ℤ} {lookback : ℕ}
    {store : Option ℤ} {fromBlock provider : String}
    {ps : List PaidLog} {rs : List RejLog}
    (hP : chunkedQueryFilter qPaid
        (resolveFrom fromBlock (savedCursor store) head lookback) head 9500 = .ok ps)
    (hR : chunkedQueryFilter qRej
        (resolveFrom fromBlock (savedCursor store) head lookback) head 9500 = .ok rs) :
    load qPaid qRej true head lookback store fromBlock provider
      = (.ok ((sortRows (buildRows (jsToLower provider) ps rs)).reverse),
          some (head + 1)) := by
  simp only [load, if_true, hP, hR]

/-- Unfolding of `load` when the paid chunked query fails. -/
theorem load_err_paid {ε : Type} {qPaid : ℤ → ℤ → Except ε (List PaidLog)}
    {qRej : ℤ → ℤ → Except ε (List RejLog)} {head : ℤ} {lookback : ℕ}
    {store : Option ℤ} {fromBlock provider : String} {e : ε}
    (hP : chunkedQueryFilter qPaid
        (resolveFrom fromBlock (savedCursor store) head lookback) head 9500
      = .error e) :
    load qPaid qRej true head lookback store fromBlock provider
      = (.error (.query e), store) := by
  simp only [load, if_true, hP]

/-- Unfolding of `load` when the paid query succeeds and the rejected one
fails. -/
theorem load_err_rej {ε : Type} {qPaid : ℤ → ℤ → Except ε (List PaidLog)}
    {qRej : ℤ → ℤ → Except ε (List RejLog)} {head : ℤ} {lookback : ℕ}
    {store : Option ℤ} {fromBlock provider : String} {ps : List PaidLog} {e : ε}
    (hP : chunkedQueryFilter qPaid
        (resolveFrom fromBlock (savedCursor store) head lookback) head 9500 = .ok ps)
    (hR : chunkedQueryFilter qRej
        (resolveFrom fromBlock (savedCursor store) head lookback) head 9500
      = .error e) :
    load qPaid qRej true head lookback store fromBlock provider
      = (.error (.query e), store) := by
  simp only [load, if_true, hP, hR]

theorem chunked_ok_step {ε α : Type} {q : ℤ → ℤ → Except ε (List α)}
    {start tob en : ℤ} {m : ℕ} {logs rest : List α}
    (h1 : start ≤ tob) (hen : min (start + (m : ℤ)) tob = en)
    (hq : q start en = .ok logs)
    (hrec : chunkedQueryFilter q (en + 1) tob m = .ok rest) :
    chunkedQueryFilter q start tob m = .ok (logs ++ rest) := by
  rw [chunkedQueryFilter, dif_pos h1, hen, hq, hrec]

theorem chunked_floor_err {ε α : Type} {q : ℤ → ℤ → Except ε (List α)}
    {start tob en : ℤ} {m : ℕ} {err : ε}
    (h1 : start ≤ tob) (hen : min (start + (m : ℤ)) tob = en) (hm : m ≤ 200)
    (hq : q start en = .error err) :
    chunkedQueryFilter q start tob m = .error err := by
  rw [chunkedQueryFilter, dif_pos h1, hen, hq]
  simp [hm]

theorem chunked_bisect_err {ε α : Type} {q : ℤ → ℤ → Except ε (List α)}
    {start tob en : ℤ} {m : ℕ} {err err2 : ε}
    (h1 : start ≤ tob) (hen : min (start + (m : ℤ)) tob = en) (hm : ¬m ≤ 200)
    (hq : q start en = .error err)
    (hrec : chunkedQueryFilter q start en (m / 2) = .error err2) :
    chunkedQueryFilter q start tob m = .error err2 := by
  rw [chunkedQueryFilter, dif_pos h1, hen, hq]
  simp [hm, hrec]

theorem chunked_bisect_ok {ε α : Type} {q : ℤ → ℤ → Except ε (List α)}
    {start tob en : ℤ} {m : ℕ} {err : ε} {more rest : List α}
    (h1 : start ≤ tob) (hen : min (start + (m : ℤ)) tob = en) (hm : ¬m ≤ 200)
    (hq : q start en = .error err)
    (hhalf : chunkedQueryFilter q start en (m / 2) = .ok more)
    (hrest : chunkedQueryFilter q (en + 1) tob m = .ok rest) :
    chunkedQueryFilter q start tob m = .ok (more ++ rest) := by
  rw [chunkedQueryFilter, dif_pos h1, hen, hq]
  simp [hm, hhalf, hrest]

/-- A range that fits in a single chunk is answered by one query. -/
theorem chunked_single {ε α : Type} {q : ℤ → ℤ → Except ε (List α)}
    {start tob : ℤ} {m : ℕ} {logs : List α}
    (h1 : start ≤ tob) (h2 : tob ≤ start + (m : ℤ)) (hq : q start tob = .ok logs) :
    chunkedQueryFilter q start tob m = .ok logs := by
  have h := chunked_ok_step h1 (min_eq_right h2) hq (chunked_base (by omega))
  simpa using h

theorem chunked_const_nil {ε α : Type} (start tob : ℤ) (m : ℕ) :
    chunkedQueryFilter (fun _ _ => (Except.ok [] : Except ε (List α))) start tob m
      = .ok [] := by
  have h := @chunked_ok_eq ε α (fun _ _ => []) m start tob
  have h2 : ∀ rs : List (ℤ × ℤ), rs.flatMap (fun _ => ([] : List α)) = [] := by
    intro rs
    induction rs with
    | nil => rfl
    | cons r t ih => simp [ih]
  rw [h2] at h
  exact h

/-- A source that answers `ok []` everywhere at or above `start` makes the
whole chunked query return `ok []`. -/
theorem chunked_quiet {ε α : Type} {q : ℤ → ℤ → Except ε (List α)} {m : ℕ} :
    ∀ {start tob : ℤ}, (∀ s e : ℤ, start ≤ s → q s e = .ok ([] : List α)) →
      chunkedQueryFilter q start tob m = .ok [] := by
  intro start tob
  induction start, tob using chunkRanges.induct m with
  | case1 start tob h ih =>
    intro hq
    obtain ⟨hb1, hb2, hb3⟩ := min_span_bounds m h
    have step := chunked_ok_step h rfl (hq start _ le_rfl)
      (ih (fun s e hs => hq s e (by omega)))
    simpa using step
  | case2 start tob h =>
    intro hq
    exact chunked_base (by omega)

/-- If a `load` invocation succeeded, it was the all-ok branch, so the cursor
was advanced to `head + 1`. -/
theorem load_snd_of_ok {ε : Type} {qPaid : ℤ → ℤ → Except ε (List PaidLog)}
    {qRej : ℤ → ℤ → Except ε (List RejLog)} {head : ℤ} {lookback : ℕ}
    {store : Option ℤ} {fromBlock provider : String} {items : List Row}
    (h : (load qPaid qRej true head lookback store fromBlock provider).1
      = .ok items) :
    (load qPaid qRej true head lookback store fromBlock provider).2
      = some (head + 1) := by
  rcases hP : chunkedQueryFilter qPaid
      (resolveFrom fromBlock (savedCursor store) head lookback) head 9500 with e | ps
  · rw [load_err_paid hP] at h
    exact absurd h (by simp)
  · rcases hR : chunkedQueryFilter qRej
        (resolveFrom fromBlock (savedCursor store) head lookback) head 9500 with e | rs
    · rw [load_err_rej hP hR] at h
      exact absurd h (by simp)
    · rw [load_ok hP hR]

/-- If a `load` invocation succeeded, the returned rows are the sorted,
reversed decoding of what the two chunked queries retrieved. -/
theorem load_items_of_ok {ε : Type} {qPaid : ℤ → ℤ → Except ε (List PaidLog)}
    {qRej : ℤ → ℤ → Except ε (List RejLog)} {head : ℤ} {lookback : ℕ}
    {store : Option ℤ} {fromBlock provider : String} {items : List Row}
    (h : (load qPaid qRej true head lookback store fromBlock provider).1
      = .ok items) :
    ∃ ps rs,
      chunkedQueryFilter qPaid
          (resolveFrom fromBlock (savedCursor store) head lookback) head 9500 = .ok ps
      ∧ chunkedQueryFilter qRej
          (resolveFrom fromBlock (savedCursor store) head lookback) head 9500 = .ok rs
      ∧ items = (sortRows (buildRows (jsToLower provider) ps rs)).reverse := by
  rcases hP : chunkedQueryFilter qPaid
      (resolveFrom fromBlock (savedCursor store) head lookback) head 9500 with e | ps
  · rw [load_err_paid hP] at h
    exact absurd h (by simp)
  · rcases hR : chunkedQueryFilter qRej
        (resolveFrom fromBlock (savedCursor store) head lookback) head 9500 with e | rs
    · rw [load_err_rej hP hR] at h
      exact absurd h (by simp)
    · rw [load_ok hP hR] at h
      exact ⟨ps, rs, rfl, rfl, by simpa using h.symm⟩

/-- C3: the scan lower bound is resolved with precedence: a non-empty
explicit override, else a non-zero persisted cursor, else
`max(head - LOOKBACK, 0)`; with head 1000, no persisted cursor, no override
and lookback 200 the queried range is `[800, 1000]` and a successful scan
persists cursor `1001 = head + 1`. -/
theorem C3_from_resolution :
    (∀ (fb : String) (saved tob : ℤ) (lb : ℕ), fb ≠ "" →
        resolveFrom fb saved tob lb = jsNumber fb)
    ∧ (∀ (saved tob : ℤ) (lb : ℕ), saved ≠ 0 →
        resolveFrom "" saved tob lb = saved)
    ∧ (∀ (tob : ℤ) (lb : ℕ),
        resolveFrom "" 0 tob lb = max (tob - (lb : ℤ)) 0)
    ∧ resolveFrom "" (savedCursor none) 1000 200 = 800
    ∧ load (fun _ _ => (Except.ok [] : Except Unit (List PaidLog)))
        (fun _ _ => (Except.ok [] : Except Unit (List RejLog)))
        true 1000 200 none "" "0xabc" = (.ok [], some 1001) := by
  refine ⟨fun fb saved tob lb hfb => ?_, fun saved tob lb hs => ?_,
    fun tob lb => ?_, ?_, ?_⟩
  · rw [resolveFrom, if_pos hfb]
  · rw [resolveFrom, if_neg (by simp), if_pos hs]
  · rw [resolveFrom, if_neg (by simp), if_neg (by simp)]
  · norm_num [resolveFrom, savedCursor]
  · rw [load_ok (chunked_const_nil _ _ _) (chunked_const_nil _ _ _)]
    norm_num [buildRows, sortRows, List.insertionSort]

/-- Witness for C3's conditional clauses at concrete inputs. -/
theorem C3_witness :
    resolveFrom "42" 7 100 10 = jsNumber "42"
    ∧ resolveFrom "" 7 100 10 = 7
    ∧ resolveFrom "" 0 100 10 = max ((100 : ℤ) - ((10 : ℕ) : ℤ)) 0 :=
  ⟨C3_from_resolution.1 "42" 7 100 10 (by decide),
    C3_from_resolution.2.1 7 100 10 (by decide),
    C3_from_resolution.2.2.1 100 10⟩

/-- C5: the persisted cursor is written only on full success; a scan ending
in any failure leaves the cursor cell exactly as it was before the scan. -/
theorem C5_cursor_unchanged_on_failure {ε : Type}
    (qPaid : ℤ → ℤ → Except ε (List PaidLog))
    (qRej : ℤ → ℤ → Except ε (List RejLog)) (filtersOk : Bool) (head : ℤ)
    (lookback : ℕ) (store : Option ℤ) (fromBlock provider : String)
    (err : LoadError ε)
    (h : (load qPaid qRej filtersOk head lookback store fromBlock provider).1
      = .error err) :
    (load qPaid qRej filtersOk head lookback store fromBlock provider).2
      = store := by
  cases filtersOk with
  | false => rfl
  | true =>
    rcases hP : chunkedQueryFilter qPaid
        (resolveFrom fromBlock (savedCursor store) head lookback) head 9500 with e | ps
    · rw [load_err_paid hP]
    · rcases hR : chunkedQueryFilter qRej
          (resolveFrom fromBlock (savedCursor store) head lookback) head 9500 with e | rs
      · rw [load_err_rej hP hR]
      · rw [load_ok hP hR] at h
        exact absurd h (by simp)

/-- Witness for C5: a scan aborted by the missing-filter probe leaves the
stored cursor at its prior value. -/
theorem C5_witness :
    (load (fun _ _ => (Except.ok [] : Except Unit (List PaidLog)))
      (fun _ _ => (Except.ok [] : Except Unit (List RejLog)))
      false 5 1 (some 3) "" "0xa").2 = some 3 :=
  C5_cursor_unchanged_on_failure _ _ false 5 1 (some 3) "" "0xa"
    .filtersMissing rfl

theorem rowInv_paidRow (l : PaidLog) : rowInv (paidRow l) := by
  constructor
  · intro _
    exact ⟨rfl, rfl, rfl⟩
  · intro hk
    simp [paidRow] at hk

theorem rowInv_rejRow (l : RejLog) : rowInv (rejRow l) := by
  constructor
  · intro hk
    simp [rejRow] at hk
  · intro _
    exact ⟨rfl, rfl, rfl⟩

/-- C9: every row returned by a successful scan satisfies kind-exclusivity:
paid rows have amount and visitIndex populated and no reason; rejected rows
have a reason and neither amount nor visitIndex. -/
theorem C9_kind_exclusivity {ε : Type}
    (qPaid : ℤ → ℤ → Except ε (List PaidLog))
    (qRej : ℤ → ℤ → Except ε (List RejLog)) (head : ℤ) (lookback : ℕ)
    (store : Option ℤ) (fromBlock provider : String) (items : List Row)
    (h : (load qPaid qRej true head lookback store fromBlock provider).1
      = .ok items) :
    ∀ r ∈ items, rowInv r := by
  obtain ⟨ps, rs, hP, hR, hitems⟩ := load_items_of_ok h
  subst hitems
  intro r hr
  rw [List.mem_reverse] at hr
  have hr2 := (sortRows_perm _).mem_iff.mp hr
  rw [buildRows_eq] at hr2
  rcases List.mem_append.mp hr2 with hm | hm
  · obtain ⟨l, _, rfl⟩ := List.mem_map.mp hm
    exact rowInv_paidRow l
  · obtain ⟨l, _, rfl⟩ := List.mem_map.mp hm
    exact rowInv_rejRow l

/-- Witness for C9: a concrete successful scan retrieving one paid and one
rejected event; the paid row of that scan satisfies the invariant. -/
theorem C9_witness :
    rowInv (paidRow ⟨1, "0xa", 1, 2025, 100, 1, "t1", 5⟩) :=
  C9_kind_exclusivity
    (fun _ _ => (.ok [⟨1, "0xa", 1, 2025, 100, 1, "t1", 5⟩] :
      Except Unit (List PaidLog)))
    (fun _ _ => .ok [⟨"0xa", 2, 2025, "no", "t2", 2⟩]) 10 10 none "" "0xA" _
    (by
      have hres : resolveFrom "" (savedCursor none) 10 10 = 0 := by decide
      rw [load_ok (by rw [hres]; exact chunked_single (by decide) (by decide) rfl)
        (by rw [hres]; exact chunked_single (by decide) (by decide) rfl)])
    (paidRow ⟨1, "0xa", 1, 2025, 100, 1, "t1", 5⟩) (by decide)

/-- C10 counterexample: the claim predicts that an explicit override string
parsing to 0 is treated as absent, so resolution falls through to
`max(head - LOOKBACK, 0)` (here 800).  In the code the string "0" is
non-empty, hence truthy, so `Number("0") = 0` is used directly: the resolved
lower bound is 0, not 800, and block 0 is selected via the override. -/
theorem C10_cex :
    resolveFrom "0" (savedCursor none) 1000 200 = 0
    ∧ max ((1000 : ℤ) - ((200 : ℕ) : ℤ)) 0 = 800
    ∧ (0 : ℤ) ≠ 800 := by
  refine ⟨?_, by norm_num, by norm_num⟩
  rw [resolveFrom, if_pos (by decide)]
  decide

/-- C10 amended: a persisted cursor of 0 and an empty override are treated as
absent and resolution falls through; but any non-empty override string —
including "0" — is used as given, so block 0 cannot be selected via the
cursor, while it can via an explicit override. -/
theorem C10_amended :
    savedCursor (some 0) = 0
    ∧ (∀ (tob : ℤ) (lb : ℕ), resolveFrom "" 0 tob lb = max (tob - (lb : ℤ)) 0)
    ∧ (∀ (fb : String) (saved tob : ℤ) (lb : ℕ), fb ≠ "" →
        resolveFrom fb saved tob lb = jsNumber fb)
    ∧ resolveFrom "0" 0 1000 200 = 0 := by
  refine ⟨rfl, fun tob lb => ?_, fun fb saved tob lb hfb => ?_, ?_⟩
  · rw [resolveFrom, if_neg (by simp), if_neg (by simp)]
  · rw [resolveFrom, if_pos hfb]
  · rw [resolveFrom, if_pos (by decide)]
    decide

/-- Witness for C10's conditional clause at a concrete input. -/
theorem C10_witness : resolveFrom "7" 3 50 5 = jsNumber "7" :=
  C10_amended.2.2.1 "7" 3 50 5 (by decide)

/-- C7: the rows presented by a successful scan are the retrieved rows put
through a stable ascending sort on block number followed by a reversal, so
the final sequence is descending by block, ties keep their relative order
under the ascending sort, and events at blocks `[5, 2, 9, 2]` (the duplicate
block from two kinds) are presented as `9, 5, 2, 2`. -/
theorem C7_descending_presentation :
    (∀ l : List Row,
        List.Pairwise (fun a b : Row => b.block ≤ a.block) ((sortRows l).reverse))
    ∧ (∀ (l : List Row) (k : ℤ),
        (sortRows l).filter (fun r => decide (r.block = k))
          = l.filter (fun r => decide (r.block = k)))
    ∧ (∀ {ε : Type} (qPaid : ℤ → ℤ → Except ε (List PaidLog))
        (qRej : ℤ → ℤ → Except ε (List RejLog)) (head : ℤ) (lookback : ℕ)
        (store : Option ℤ) (fromBlock provider : String)
        (ps : List PaidLog) (rs : List RejLog),
        chunkedQueryFilter qPaid
            (resolveFrom fromBlock (savedCursor store) head lookback) head 9500
          = .ok ps →
        chunkedQueryFilter qRej
            (resolveFrom fromBlock (savedCursor store) head lookback) head 9500
          = .ok rs →
        (load qPaid qRej true head lookback store fromBlock provider).1
          = .ok ((sortRows (buildRows (jsToLower provider) ps rs)).reverse))
    ∧ ((sortRows [paidRow ⟨1, "0xa", 1, 2025, 100, 1, "t5", 5⟩,
          paidRow ⟨2, "0xa", 1, 2025, 50, 2, "t2", 2⟩,
          paidRow ⟨3, "0xa", 2, 2025, 75, 1, "t9", 9⟩,
          rejRow ⟨"0xa", 2, 2025, "dup", "t2b", 2⟩]).reverse).map Row.block
        = [9, 5, 2, 2] := by
  refine ⟨fun l => ?_, fun l k => filter_sortRows k l,
    fun qP qR head lb store fb prov ps rs hP hR => by rw [load_ok hP hR],
    by decide⟩
  rw [List.pairwise_reverse]
  exact sortRows_sorted l

/-- Witness for C7's conditional clause: a concrete successful scan returns
the sorted-then-reversed decoded rows. -/
theorem C7_witness :
    (load (fun _ _ => (.ok [⟨1, "0xB", 1, 2025, 100, 1, "t1", 5⟩] :
        Except Unit (List PaidLog)))
      (fun _ _ => .ok [⟨"0xB", 2, 2025, "no", "t2", 2⟩]) true 20 20 none "" "0xb").1
      = .ok ((sortRows (buildRows (jsToLower "0xb")
          [⟨1, "0xB", 1, 2025, 100, 1, "t1", 5⟩]
          [⟨"0xB", 2, 2025, "no", "t2", 2⟩])).reverse) := by
  have hres : resolveFrom "" (savedCursor none) 20 20 = 0 := by decide
  exact C7_descending_presentation.2.2.1
    (fun _ _ => (.ok [⟨1, "0xB", 1, 2025, 100, 1, "t1", 5⟩] :
      Except Unit (List PaidLog)))
    (fun _ _ => .ok [⟨"0xB", 2, 2025, "no", "t2", 2⟩]) 20 20 none "" "0xb" _ _
    (by rw [hres]; exact chunked_single (by decide) (by decide) rfl)
    (by rw [hres]; exact chunked_single (by decide) (by decide) rfl)

/-- C8: a successful scan returns exactly the rows decoded from retrieved
logs whose reported provider matches the requested account under lowercased
comparison — the client-side post-filter applies to whatever the (possibly
already server-side filtered) queries returned. -/
theorem C8_account_postfilter {ε : Type}
    (qPaid : ℤ → ℤ → Except ε (List PaidLog))
    (qRej : ℤ → ℤ → Except ε (List RejLog)) (head : ℤ) (lookback : ℕ)
    (store : Option ℤ) (fromBlock provider : String)
    (ps : List PaidLog) (rs : List RejLog) (items : List Row)
    (hP : chunkedQueryFilter qPaid
        (resolveFrom fromBlock (savedCursor store) head lookback) head 9500 = .ok ps)
    (hR : chunkedQueryFilter qRej
        (resolveFrom fromBlock (savedCursor store) head lookback) head 9500 = .ok rs)
    (hitems : (load qPaid qRej true head lookback store fromBlock provider).1
      = .ok items) :
    ∀ r : Row, r ∈ items ↔
      ((∃ l, l ∈ ps ∧ jsToLower l.provider = jsToLower provider ∧ r = paidRow l)
        ∨ (∃ l, l ∈ rs ∧ jsToLower l.provider = jsToLower provider ∧ r = rejRow l)) := by
  rw [load_ok hP hR] at hitems
  simp only [Except.ok.injEq] at hitems
  subst hitems
  intro r
  rw [List.mem_reverse, (sortRows_perm _).mem_iff, buildRows_eq]
  simp only [List.mem_append, List.mem_map, List.mem_filter, decide_eq_true_eq]
  constructor
  · rintro (⟨l, ⟨hl, hlp⟩, rfl⟩ | ⟨l, ⟨hl, hlp⟩, rfl⟩)
    · exact Or.inl ⟨l, hl, hlp, rfl⟩
    · exact Or.inr ⟨l, hl, hlp, rfl⟩
  · rintro (⟨l, hl, hlp, rfl⟩ | ⟨l, hl, hlp, rfl⟩)
    · exact Or.inl ⟨l, ⟨hl, hlp⟩, rfl⟩
    · exact Or.inr ⟨l, ⟨hl, hlp⟩, rfl⟩

/-- Witness for C8: scanning account `0xabc` over a stream holding events
for providers `0xABC` and `0xDEF` keeps exactly the `0xABC` entry — matched
case-insensitively. -/
theorem C8_witness :
    paidRow ⟨1, "0xABC", 1, 2025, 100, 1, "tA", 5⟩
        ∈ (sortRows (buildRows (jsToLower "0xabc")
          [⟨1, "0xABC", 1, 2025, 100, 1, "tA", 5⟩,
            ⟨2, "0xDEF", 1, 2025, 50, 1, "tB", 6⟩] ([] : List RejLog))).reverse ↔
      ((∃ l, l ∈ [(⟨1, "0xABC", 1, 2025, 100, 1, "tA", 5⟩ : PaidLog),
            ⟨2, "0xDEF", 1, 2025, 50, 1, "tB", 6⟩]
          ∧ jsToLower l.provider = jsToLower "0xabc"
          ∧ paidRow ⟨1, "0xABC", 1, 2025, 100, 1, "tA", 5⟩ = paidRow l)
        ∨ (∃ l, l ∈ ([] : List RejLog)
            ∧ jsToLower l.provider = jsToLower "0xabc"
            ∧ paidRow ⟨1, "0xABC", 1, 2025, 100, 1, "tA", 5⟩ = rejRow l)) := by
  have hres : resolveFrom "" (savedCursor none) 30 30 = 0 := by decide
  have hP : chunkedQueryFilter
      (fun _ _ => (.ok [⟨1, "0xABC", 1, 2025, 100, 1, "tA", 5⟩,
          ⟨2, "0xDEF", 1, 2025, 50, 1, "tB", 6⟩] : Except Unit (List PaidLog)))
      (resolveFrom "" (savedCursor none) 30 30) 30 9500
      = .ok [⟨1, "0xABC", 1, 2025, 100, 1, "tA", 5⟩,
          ⟨2, "0xDEF", 1, 2025, 50, 1, "tB", 6⟩] := by
    rw [hres]; exact chunked_single (by decide) (by decide) rfl
  have hR : chunkedQueryFilter
      (fun _ _ => (.ok [] : Except Unit (List RejLog)))
      (resolveFrom "" (savedCursor none) 30 30) 30 9500 = .ok [] :=
    chunked_const_nil _ _ _
  exact C8_account_postfilter
    (fun _ _ => (.ok [⟨1, "0xABC", 1, 2025, 100, 1, "tA", 5⟩,
        ⟨2, "0xDEF", 1, 2025, 50, 1, "tB", 6⟩] : Except Unit (List PaidLog)))
    (fun _ _ => (.ok [] : Except Unit (List RejLog))) 30 30 none "" "0xabc" _ _ _
    hP hR (by rw [load_ok hP hR])
    (paidRow ⟨1, "0xABC", 1, 2025, 100, 1, "tA", 5⟩)

/-- Against a source whose ceiling is `w`, the chunked query succeeds with
exactly the events of the requested range whenever the current span already
fits (`m ≤ w`) or the ceiling is at least the bisection floor (`200 ≤ w`). -/
theorem chunked_rangeLimited_ok (w : ℕ) (evs : List PaidLog) :
    ∀ (m : ℕ) (start tob : ℤ), (m ≤ w ∨ 200 ≤ w) →
      ∃ res, chunkedQueryFilter (rangeLimitedSource w evs) start tob m = .ok res
        ∧ ∀ l, l ∈ res ↔ (l ∈ evs ∧ start ≤ l.block ∧ l.block ≤ tob) := by
  intro m
  induction m using Nat.strong_induction_on with
  | _ m ihm =>
    intro start tob hw
    have inner : ∀ (n : ℕ) (s : ℤ), (tob + 1 - s).toNat ≤ n →
        ∃ res, chunkedQueryFilter (rangeLimitedSource w evs) s tob m = .ok res
          ∧ ∀ l, l ∈ res ↔ (l ∈ evs ∧ s ≤ l.block ∧ l.block ≤ tob) := by
      intro n
      induction n with
      | zero =>
        intro s hs
        refine ⟨[], chunked_base (by omega), fun l => ?_⟩
        simp only [List.not_mem_nil, false_iff]
        rintro ⟨-, h1, h2⟩
        omega
      | succ n ihn =>
        intro s hs
        by_cases hse : s ≤ tob
        · obtain ⟨hb1, hb2, hb3⟩ := min_span_bounds m hse
          by_cases hq : (w : ℤ) < min (s + (m : ℤ)) tob - s
          · have hw200 : 200 ≤ w := by
              rcases hw with hw | hw
              · omega
              · exact hw
            have hm200 : ¬m ≤ 200 := by omega
            obtain ⟨res1, hres1, hmem1⟩ :=
              ihm (m / 2) (by omega) s (min (s + (m : ℤ)) tob) (Or.inr hw200)
            obtain ⟨res2, hres2, hmem2⟩ := ihn (min (s + (m : ℤ)) tob + 1) (by omega)
            refine ⟨res1 ++ res2,
              chunked_bisect_ok hse rfl hm200
                (by rw [rangeLimitedSource, if_pos hq]) hres1 hres2,
              fun l => ?_⟩
            rw [List.mem_append, hmem1 l, hmem2 l]
            constructor
            · rintro (⟨hl, a, b⟩ | ⟨hl, a, b⟩) <;> exact ⟨hl, by omega, by omega⟩
            · rintro ⟨hl, a, b⟩
              by_cases hc : l.block ≤ min (s + (m : ℤ)) tob
              · exact Or.inl ⟨hl, a, hc⟩
              · exact Or.inr ⟨hl, by omega, b⟩
          · obtain ⟨res2, hres2, hmem2⟩ := ihn (min (s + (m : ℤ)) tob + 1) (by omega)
            refine ⟨evs.filter (fun l => decide (s ≤ l.block)
                && decide (l.block ≤ min (s + (m : ℤ)) tob)) ++ res2,
              chunked_ok_step hse rfl (by rw [rangeLimitedSource, if_neg hq]) hres2,
              fun l => ?_⟩
            rw [List.mem_append, List.mem_filter, hmem2 l]
            simp only [Bool.and_eq_true, decide_eq_true_eq]
            constructor
            · rintro (⟨hl, a, b⟩ | ⟨hl, a, b⟩) <;> exact ⟨hl, by omega, by omega⟩
            · rintro ⟨hl, a, b⟩
              by_cases hc : l.block ≤ min (s + (m : ℤ)) tob
              · exact Or.inl ⟨hl, a, hc⟩
              · exact Or.inr ⟨hl, by omega, b⟩
        · refine ⟨[], chunked_base (by omega), fun l => ?_⟩
          simp only [List.not_mem_nil, false_iff]
          rintro ⟨-, h1, h2⟩
          omega
    exact inner (tob + 1 - start).toNat start le_rfl

/-- C2 counterexample: a source with ceiling `W = 150` (below the code's
bisection floor of 200) rejects any span wider than 150.  A scan of
`[0, 400]` with `MAX_SPAN = 400 > W` does NOT succeed: `[0, 400]` is
rejected, bisection retries at span 200, the source still rejects span 200,
and since `200 ≤ 200` the error is rethrown — refuting the claim that
`MAX_SPAN > W` alone guarantees success for every `W`. -/
theorem C2_cex :
    (150 : ℕ) < 400
    ∧ chunkedQueryFilter (rangeLimitedSource 150 []) 0 400 400 = .error () := by
  refine ⟨by norm_num, ?_⟩
  have hq400 : rangeLimitedSource 150 ([] : List PaidLog) 0 400 = .error () := by
    rw [rangeLimitedSource, if_pos (by norm_num)]
  have hq200 : rangeLimitedSource 150 ([] : List PaidLog) 0 200 = .error () := by
    rw [rangeLimitedSource, if_pos (by norm_num)]
  have hmin400 : min ((0 : ℤ) + ((400 : ℕ) : ℤ)) 400 = 400 := by norm_num
  have hmin200 : min ((0 : ℤ) + ((200 : ℕ) : ℤ)) 400 = 200 := by norm_num
  have h200 : chunkedQueryFilter (rangeLimitedSource 150 []) 0 400 200 = .error () :=
    chunked_floor_err (by norm_num) hmin200 (by norm_num) hq200
  exact chunked_bisect_err (by norm_num) hmin400 (by norm_num) hq400
    (by rw [(by norm_num : (400 : ℕ) / 2 = 200)]; exact h200)

set_option linter.unusedVariables false in
/-- C2 amended: with a source rejecting exactly the queries wider than `W`,
a scan with `MAX_SPAN > W` terminates and succeeds — returning all events of
the range — provided `W` is at least the bisection floor of 200; every
sub-query the source answers spans at most `W`; and once the floor is
reached (`maxSpan ≤ 200`) a still-failing request propagates its failure
with no further retries. -/
theorem C2_bisection_success (w maxSpan : ℕ) (evs : List PaidLog)
    (fromB tob : ℤ) (hw : 200 ≤ w) (hms : w < maxSpan) :
    (∃ res,
        chunkedQueryFilter (rangeLimitedSource w evs) fromB tob maxSpan = .ok res
          ∧ ∀ l, l ∈ res ↔ (l ∈ evs ∧ fromB ≤ l.block ∧ l.block ≤ tob))
    ∧ (∀ (s e : ℤ) (res : List PaidLog),
        rangeLimitedSource w evs s e = .ok res → e - s ≤ (w : ℤ))
    ∧ (∀ {ε α : Type} (q : ℤ → ℤ → Except ε (List α)) (start tob2 en : ℤ)
        (m : ℕ) (err : ε), start ≤ tob2 → min (start + (m : ℤ)) tob2 = en →
        m ≤ 200 → q start en = .error err →
        chunkedQueryFilter q start tob2 m = .error err) := by
  refine ⟨chunked_rangeLimited_ok w evs maxSpan fromB tob (Or.inr hw),
    fun s e res hres => ?_,
    fun q start tob2 en m err h1 hen hm hq => chunked_floor_err h1 hen hm hq⟩
  rw [rangeLimitedSource] at hres
  by_cases hq : (w : ℤ) < e - s
  · rw [if_pos hq] at hres
    exact absurd hres (by simp)
  · omega

/-- Witness for C2 at `W = 200`, `MAX_SPAN = 300`, one event at block 7 in
the scanned range `[0, 50]`. -/
theorem C2_witness :
    (∃ res,
        chunkedQueryFilter
            (rangeLimitedSource 200 [⟨1, "0xa", 1, 2025, 5, 1, "t", 7⟩]) 0 50 300
          = .ok res
          ∧ ∀ l, l ∈ res ↔
              (l ∈ [(⟨1, "0xa", 1, 2025, 5, 1, "t", 7⟩ : PaidLog)]
                ∧ (0 : ℤ) ≤ l.block ∧ l.block ≤ 50))
    ∧ (∀ (s e : ℤ) (res : List PaidLog),
        rangeLimitedSource 200 [⟨1, "0xa", 1, 2025, 5, 1, "t", 7⟩] s e = .ok res →
          e - s ≤ ((200 : ℕ) : ℤ))
    ∧ (∀ {ε α : Type} (q : ℤ → ℤ → Except ε (List α)) (start tob2 en : ℤ)
        (m : ℕ) (err : ε), start ≤ tob2 → min (start + (m : ℤ)) tob2 = en →
        m ≤ 200 → q start en = .error err →
        chunkedQueryFilter q start tob2 m = .error err) :=
  C2_bisection_success 200 300 [⟨1, "0xa", 1, 2025, 5, 1, "t", 7⟩] 0 50
    (by norm_num) (by norm_num)

/-- Against a source that always fails — a connectivity-style failure, its
error recording the attempted sub-range — the chunked scan of `[0, 400]` at
span 9500 halves down through 4750, 2375, 1187, 593, 296 and finally throws
the error of the floor-level sub-query `[0, 148]`. -/
theorem chunked_alwaysfail_chain {α : Type} :
    chunkedQueryFilter
        (fun s e => (.error (s, e) : Except (ℤ × ℤ) (List α))) 0 400 9500
      = .error (0, 148) := by
  have h148 : chunkedQueryFilter
      (fun s e => (.error (s, e) : Except (ℤ × ℤ) (List α))) 0 296 148
      = .error (0, 148) :=
    chunked_floor_err (by norm_num) (by norm_num) (by norm_num) rfl
  have h296 : chunkedQueryFilter
      (fun s e => (.error (s, e) : Except (ℤ × ℤ) (List α))) 0 400 296
      = .error (0, 148) :=
    chunked_bisect_err (by norm_num)
      (by norm_num : min ((0 : ℤ) + ((296 : ℕ) : ℤ)) 400 = 296) (by norm_num) rfl
      (by rw [(by norm_num : (296 : ℕ) / 2 = 148)]; exact h148)
  have h593 : chunkedQueryFilter
      (fun s e => (.error (s, e) : Except (ℤ × ℤ) (List α))) 0 400 593
      = .error (0, 148) :=
    chunked_bisect_err (by norm_num)
      (by norm_num : min ((0 : ℤ) + ((593 : ℕ) : ℤ)) 400 = 400) (by norm_num) rfl
      (by rw [(by norm_num : (593 : ℕ) / 2 = 296)]; exact h296)
  have h1187 : chunkedQueryFilter
      (fun s e => (.error (s, e) : Except (ℤ × ℤ) (List α))) 0 400 1187
      = .error (0, 148) :=
    chunked_bisect_err (by norm_num)
      (by norm_num : min ((0 : ℤ) + ((1187 : ℕ) : ℤ)) 400 = 400) (by norm_num) rfl
      (by rw [(by norm_num : (1187 : ℕ) / 2 = 593)]; exact h593)
  have h2375 : chunkedQueryFilter
      (fun s e => (.error (s, e) : Except (ℤ × ℤ) (List α))) 0 400 2375
      = .error (0, 148) :=
    chunked_bisect_err (by norm_num)
      (by norm_num : min ((0 : ℤ) + ((2375 : ℕ) : ℤ)) 400 = 400) (by norm_num) rfl
      (by rw [(by norm_num : (2375 : ℕ) / 2 = 1187)]; exact h1187)
  have h4750 : chunkedQueryFilter
      (fun s e => (.error (s, e) : Except (ℤ × ℤ) (List α))) 0 400 4750
      = .error (0, 148) :=
    chunked_bisect_err (by norm_num)
      (by norm_num : min ((0 : ℤ) + ((4750 : ℕ) : ℤ)) 400 = 400) (by norm_num) rfl
      (by rw [(by norm_num : (4750 : ℕ) / 2 = 2375)]; exact h2375)
  exact chunked_bisect_err (by norm_num)
    (by norm_num : min ((0 : ℤ) + ((9500 : ℕ) : ℤ)) 400 = 400) (by norm_num) rfl
    (by rw [(by norm_num : (9500 : ℕ) / 2 = 4750)]; exact h4750)

/-- C4 counterexample: with a source that always fails (a failure
independent of range size, i.e. not a range-size rejection), the scan does
NOT abort on the first failing sub-range `[0, 400]`: the failing sub-range
is retried by bisection, and the failure returned to the caller is that of
the bisected floor-level sub-query `[0, 148]`, not the original sub-range's
`(0, 400)` failure.  The cursor is nevertheless untouched. -/
theorem C4_cex :
    load (fun s e => (.error (s, e) : Except (ℤ × ℤ) (List PaidLog)))
        (fun s e => .error (s, e)) true 400 400 none "" "0xa"
      = (.error (.query (0, 148)), none)
    ∧ ((0 : ℤ), (148 : ℤ)) ≠ ((0 : ℤ), (400 : ℤ)) := by
  constructor
  · have hres : resolveFrom "" (savedCursor none) 400 400 = 0 := by decide
    exact load_err_paid (by rw [hres]; exact chunked_alwaysfail_chain)
  · simp

/-- C4 amended: the code does not classify failures.  Any failing sub-range
request — range-size rejection or not — is retried by bisection at half the
span while the span exceeds the 200 floor; at or below the floor the failure
is rethrown; a failure surfacing from the chunked queries aborts the whole
scan, is returned to the caller, and leaves the cursor unpersisted. -/
theorem C4_failure_handling :
    (∀ {ε α : Type} (q : ℤ → ℤ → Except ε (List α)) (start tob en : ℤ)
        (m : ℕ) (err : ε), start ≤ tob → min (start + (m : ℤ)) tob = en →
        ¬m ≤ 200 → q start en = .error err →
        chunkedQueryFilter q start tob m
          = (chunkedQueryFilter q start en (m / 2)).bind
              (fun more => (chunkedQueryFilter q (en + 1) tob m).bind
                (fun rest => .ok (more ++ rest))))
    ∧ (∀ {ε α : Type} (q : ℤ → ℤ → Except ε (List α)) (start tob en : ℤ)
        (m : ℕ) (err : ε), start ≤ tob → min (start + (m : ℤ)) tob = en →
        m ≤ 200 → q start en = .error err →
        chunkedQueryFilter q start tob m = .error err)
    ∧ (∀ {ε : Type} (qPaid : ℤ → ℤ → Except ε (List PaidLog))
        (qRej : ℤ → ℤ → Except ε (List RejLog)) (head : ℤ) (lookback : ℕ)
        (store : Option ℤ) (fromBlock provider : String) (e : ε),
        chunkedQueryFilter qPaid
            (resolveFrom fromBlock (savedCursor store) head lookback) head 9500
          = .error e →
        load qPaid qRej true head lookback store fromBlock provider
          = (.error (.query e), store)) := by
  refine ⟨fun q start tob en m err h1 hen hm hq => ?_,
    fun q start tob en m err h1 hen hm hq => chunked_floor_err h1 hen hm hq,
    fun qP qR head lb store fb prov e h => load_err_paid h⟩
  rw [chunkedQueryFilter, dif_pos h1, hen, hq]
  dsimp only
  rw [if_neg hm]
  cases h2 : chunkedQueryFilter q start en (m / 2) with
  | error err2 => rfl
  | ok more =>
    cases h3 : chunkedQueryFilter q (en + 1) tob m with
    | error err3 => rfl
    | ok rest => rfl

/-- Witness for C4: a concrete always-failing source at span 300 over
`[0, 300]` is retried at span 150 and the remainder rescanned. -/
theorem C4_witness :
    chunkedQueryFilter
        (fun s e => (.error (s, e) : Except (ℤ × ℤ) (List PaidLog))) 0 300 300
      = (chunkedQueryFilter
          (fun s e => (.error (s, e) : Except (ℤ × ℤ) (List PaidLog))) 0 300 150).bind
          (fun more => (chunkedQueryFilter
              (fun s e => (.error (s, e) : Except (ℤ × ℤ) (List PaidLog)))
              (300 + 1) 300 300).bind
            (fun rest => .ok (more ++ rest))) :=
  C4_failure_handling.1 (fun s e => .error (s, e)) 0 300 300 300 (0, 300)
    (by norm_num) (by norm_num) (by norm_num) rfl

/-- C6: a second scan right after a successful one, with no new events above
the first head and no head regression, returns an empty delta (in particular
`from > to` when the head did not move yields `ok []`), and the cursor moves
from `head1 + 1` to `head2 + 1`, never backward. -/
theorem C6_rescan_empty {ε : Type} (qPaid : ℤ → ℤ → Except ε (List PaidLog))
    (qRej : ℤ → ℤ → Except ε (List RejLog)) (head1 head2 : ℤ) (lookback : ℕ)
    (store0 : Option ℤ) (provider : String)
    (h0 : 0 ≤ head1) (h12 : head1 ≤ head2)
    (hfirst : ∃ items,
      (load qPaid qRej true head1 lookback store0 "" provider).1 = .ok items)
    (hquiet : ∀ s e : ℤ, head1 < s → qPaid s e = .ok [] ∧ qRej s e = .ok []) :
    (load qPaid qRej true head1 lookback store0 "" provider).2 = some (head1 + 1)
    ∧ load qPaid qRej true head2 lookback
        (load qPaid qRej true head1 lookback store0 "" provider).2 "" provider
      = (.ok [], some (head2 + 1))
    ∧ head1 + 1 ≤ head2 + 1 := by
  obtain ⟨items, hfst⟩ := hfirst
  have hsnd := load_snd_of_ok hfst
  refine ⟨hsnd, ?_, by omega⟩
  rw [hsnd]
  have hres : resolveFrom "" (savedCursor (some (head1 + 1))) head2 lookback
      = head1 + 1 := by
    rw [resolveFrom, if_neg (by simp), savedCursor, Option.getD_some,
      if_pos (by omega)]
  have hP : chunkedQueryFilter qPaid
      (resolveFrom "" (savedCursor (some (head1 + 1))) head2 lookback) head2 9500
      = .ok [] := by
    rw [hres]
    exact chunked_quiet (fun s e hs => (hquiet s e (by omega)).1)
  have hR : chunkedQueryFilter qRej
      (resolveFrom "" (savedCursor (some (head1 + 1))) head2 lookback) head2 9500
      = .ok [] := by
    rw [hres]
    exact chunked_quiet (fun s e hs => (hquiet s e (by omega)).2)
  rw [load_ok hP hR]
  norm_num [buildRows, sortRows, List.insertionSort]

/-- Witness for C6: two consecutive scans of an empty source, heads 10 then
12, lookback 5. -/
theorem C6_witness :
    (load (fun _ _ => (Except.ok [] : Except Unit (List PaidLog)))
        (fun _ _ => (Except.ok [] : Except Unit (List RejLog)))
        true 10 5 none "" "0xa").2 = some 11
    ∧ load (fun _ _ => (Except.ok [] : Except Unit (List PaidLog)))
        (fun _ _ => (Except.ok [] : Except Unit (List RejLog))) true 12 5
        (load (fun _ _ => (Except.ok [] : Except Unit (List PaidLog)))
          (fun _ _ => (Except.ok [] : Except Unit (List RejLog)))
          true 10 5 none "" "0xa").2 "" "0xa"
      = (.ok [], some 13)
    ∧ (10 : ℤ) + 1 ≤ 12 + 1 :=
  C6_rescan_empty (fun _ _ => (Except.ok [] : Except Unit (List PaidLog)))
    (fun _ _ => (Except.ok [] : Except Unit (List RejLog))) 10 12 5 none "0xa"
    (by norm_num) (by norm_num)
    ⟨[], by
      rw [load_ok (chunked_const_nil _ _ _) (chunked_const_nil _ _ _)]
      norm_num [buildRows, sortRows, List.insertionSort]⟩
    (fun s e hs => ⟨rfl, rfl⟩)

end ClaimsWeb
